import Mathlib

/-!
Verification of the request-approval workflow engine of the Zankli internal
portal (a React + Supabase application).  The client-side logic (action
validation in `RequestDetailsModal.handleAction`, RPC payload construction in
`RequestContext.updateRequestStatus` / `updateRequest`, notification
derivation in `Dashboard`) is translated directly from the TypeScript source.
The server-side database functions (`handle_request_action`,
`resubmit_request_as_admin`, `update_item_request_status_as_admin`) are not
part of the repository's source tree; they are modelled from the
specification's Approval Engine / Workflow Service sections and are marked as
such in their doc comments.

JavaScript conventions used by this embedding: `undefined`/`null` both map to
`Option.none`; the JS coercion `x || y` on strings maps the empty string to
the fallback, and on numbers maps `0` to the fallback; timestamps are the
raw ISO-8601 `created_at` strings of the database, and the chronological
comparison `new Date(b).getTime() - new Date(a).getTime()` is embedded as
lexicographic string comparison, which coincides with chronological order
on the equal-format ISO strings the database produces; JS numbers are
represented by `Rat`.  `Array.prototype.sort` is stable, so the
notification sort is embedded as a stable insertion sort.
-/

namespace Zankli

/-- `UserRole` from `types.ts`. -/
inductive UserRole
  | admin
  | approver
deriving DecidableEq

/-- `User` from `types.ts` (display-only `fullName` omitted). -/
structure User where
  id : String
  email : String
  role : UserRole
deriving DecidableEq

/-- `RequestType` from `types.ts`. -/
inductive RequestType
  | DIESEL
  | PROCUREMENT
  | LEAVE
  | ITEM
  | STORE
deriving DecidableEq

/-- `ApprovalStatus` from `types.ts`. -/
inductive ApprovalStatus
  | PENDING
  | APPROVED
  | REJECTED
  | SENT_BACK
  | COMPLETED
deriving DecidableEq

/-- The string value of each `ApprovalStatus` enum member in `types.ts`. -/
def statusText : ApprovalStatus → String
  | .PENDING => "Pending"
  | .APPROVED => "Approved"
  | .REJECTED => "Rejected"
  | .SENT_BACK => "Sent Back for Correction"
  | .COMPLETED => "Completed"

/-- `Approver` (an approval-queue entry) from `types.ts`. -/
structure Approver where
  userId : String
  userEmail : Option String := none
  status : ApprovalStatus
  comments : Option String := none
  approvedAt : Option String := none
  signature : Option String := none
  hodComments : Option String := none
  internalAuditComments : Option String := none
  finalAmount : Option Rat := none
deriving DecidableEq

/-- `PdfComment` from `types.ts` (database primary key omitted). -/
structure PdfComment where
  requestId : String
  userId : String
  userEmail : Option String := none
  comment : String
  createdAt : String
deriving DecidableEq

/-- The open `details` mapping of a request: string keys to string values. -/
abbrev Details := List (String × String)

/-- `request.details?.[key]` : lookup of a key in the open details mapping. -/
def detailsLookup (d : Details) (key : String) : Option String :=
  (d.find? (fun p => p.1 == key)).map (fun p => p.2)

/-- `Request` from `types.ts` (presentation-only fields omitted; the
`details` bag is kept as a string map, with the engine-consumed
`selectedHODId` key read through `detailsLookup`). -/
structure Request where
  id : String
  requesterId : String
  requesterName : String
  type : RequestType
  details : Details
  status : ApprovalStatus
  approvalQueue : List Approver
  currentApproverIndex : Nat
  createdAt : String
  pdfComments : List PdfComment := []
  requesterSignature : Option String := none
  vendorId : Option String := none
deriving DecidableEq

/-- `request.details?.selectedHODId`, the designated-HOD reference of a
Leave request. -/
def selectedHODId (r : Request) : Option String :=
  detailsLookup r.details "selectedHODId"

/-- `Notification` from `types.ts`. -/
structure Notification where
  id : String
  message : String
  requestId : String
  isRead : Bool
  createdAt : String
deriving DecidableEq

/-- JS `a || b` where `a : string | undefined` and the result falls back to
`b : string | undefined` (empty string is falsy). -/
def jsStrOrOpt (a b : Option String) : Option String :=
  match a with
  | some s => if s = "" then b else some s
  | none => b

/-- JS `a || b` where `a : string | undefined` and `b : string`. -/
def jsStrOr (a : Option String) (b : String) : String :=
  match a with
  | some s => if s = "" then b else s
  | none => b

/-- JS `x || null` on an optional string (`undefined` and `""` become
`null`). -/
def jsStrOrNull (a : Option String) : Option String :=
  match a with
  | some s => if s = "" then none else some s
  | none => none

/-- JS `x || null` on an optional number (`undefined` and `0` become
`null`). -/
def jsNumOrNull (a : Option Rat) : Option Rat :=
  match a with
  | some v => if v = 0 then none else some v
  | none => none

/-- JS `String.prototype.trim()` (used as `comments.trim()` in
`handleAction`): strips leading and trailing whitespace.  Implemented by
structural recursion over the character list so that it evaluates inside
the kernel (Lean's own `String.trim` is defined by well-founded recursion
on byte positions and does not reduce). -/
def jsTrim (s : String) : String :=
  ⟨((s.data.dropWhile Char.isWhitespace).reverse.dropWhile Char.isWhitespace).reverse⟩

/-- Executable lexicographic comparison of character lists (total
preorder used to embed chronological comparison of ISO timestamp
strings; Lean's own `String` order is defined by well-founded recursion
and does not evaluate inside the kernel). -/
def lexLe : List Char → List Char → Bool
  | [], _ => true
  | _ :: _, [] => false
  | a :: as, b :: bs =>
    if a < b then true else if b < a then false else lexLe as bs

theorem lexLe_total : ∀ as bs : List Char, lexLe as bs = true ∨ lexLe bs as = true := by
  intro as
  induction as with
  | nil => intro bs; left; rfl
  | cons a as ih =>
    intro bs
    cases bs with
    | nil => right; rfl
    | cons b bs =>
      rcases lt_trichotomy a b with h | h | h
      · left; simp [lexLe, h]
      · subst h
        rcases ih bs with h2 | h2
        · left; simp [lexLe, lt_irrefl, h2]
        · right; simp [lexLe, lt_irrefl, h2]
      · right; simp [lexLe, h]

theorem lexLe_trans : ∀ as bs cs : List Char,
    lexLe as bs = true → lexLe bs cs = true → lexLe as cs = true := by
  intro as
  induction as with
  | nil => intros; rfl
  | cons a as ih =>
    intro bs cs h1 h2
    cases bs with
    | nil => simp [lexLe] at h1
    | cons b bs =>
      cases cs with
      | nil => simp [lexLe] at h2
      | cons c cs =>
        rcases lt_trichotomy a b with hab | hab | hab
        · rcases lt_trichotomy b c with hbc | hbc | hbc
          · simp [lexLe, lt_trans hab hbc]
          · subst hbc; simp [lexLe, hab]
          · simp [lexLe, hbc, asymm hbc] at h2
        · subst hab
          rcases lt_trichotomy a c with hac | hac | hac
          · simp [lexLe, hac]
          · subst hac
            simp only [lexLe, lt_irrefl, if_neg (lt_irrefl a), if_false] at h1 h2 ⊢
            exact ih bs cs h1 h2
          · simp [lexLe, hac, asymm hac] at h2
        · simp [lexLe, hab, asymm hab] at h1

/-- `new Date(a).getTime() <= new Date(b).getTime()` for ISO timestamp
strings of equal format: chronological order embedded as lexicographic
order on the raw strings. -/
def dateLe (a b : String) : Prop := lexLe a.data b.data = true

instance : DecidableRel dateLe := fun a b =>
  inferInstanceAs (Decidable (lexLe a.data b.data = true))

/-- The well-known auditor account, `RequestDetailsModal.tsx` line 35. -/
def AUDITOR_EMAIL : String := "auditorzankli@gmail.com"

/-- `RequestDetailsModal.tsx` lines 40-41: the auditor identity is resolved
from the user directory by email (`users.find(u => u.email === AUDITOR_EMAIL)`);
`AUDITOR_ID` is `null` when no such user exists. -/
def auditorId (users : List User) : Option String :=
  (users.find? (fun u => u.email == AUDITOR_EMAIL)).map (fun u => u.id)

/-- `isCurrentUserApprover` from `RequestDetailsModal.tsx` lines 44-50:
the viewer is the current approver iff the request is Pending, is not an
Item request, the current index is in bounds, and the entry at the current
index carries the viewer's user id. -/
def isCurrentUserApprover (u : User) (request : Request) : Bool :=
  if request.status ≠ ApprovalStatus.PENDING then false
  else if request.type = RequestType.ITEM then false
  else if request.approvalQueue.length ≤ request.currentApproverIndex then false
  else
    match request.approvalQueue[request.currentApproverIndex]? with
    | some currentApprover => currentApprover.userId == u.id
    | none => false

/-- `isHOD` from `RequestDetailsModal.tsx` lines 52-54. -/
def isHOD (u : User) (request : Request) : Bool :=
  request.type = RequestType.LEAVE && isCurrentUserApprover u request
    && selectedHODId request == some u.id

/-- `isAuditor` from `RequestDetailsModal.tsx` lines 56-58. -/
def isAuditor (users : List User) (u : User) (request : Request) : Bool :=
  isCurrentUserApprover u request && auditorId users == some u.id

/-- The `finalAmount` member of the `auditDetails` object built in
`handleAction` (`RequestDetailsModal.tsx` lines 79-83):
`!finalAmount || isNaN(parsedFinalAmount) ? undefined : parsedFinalAmount`.
`finalAmount` is the raw text-input string (the empty string is the only
falsy string) and `parsedFinalAmount` is the result of
`parseFloat(finalAmount)`, passed in here as an `Option Rat`
(`none` = `NaN`) because JS floating-point parsing is external to this
embedding. -/
def computeAuditFinalAmount (finalAmount : String) (parsedFinalAmount : Option Rat) :
    Option Rat :=
  if finalAmount = "" ∨ parsedFinalAmount = none then none else parsedFinalAmount

/-- The `auditDetails` argument object of `updateRequestStatus`. -/
structure AuditDetails where
  internalAuditComments : String
  finalAmount : Option Rat
deriving DecidableEq

/-- The argument list of the `updateRequestStatus(request.id, currentUser.id,
status, comments, signature, hodComments, auditDetails)` call issued by
`handleAction`. -/
structure UpdateCallArgs where
  requestId : String
  approverId : String
  action : ApprovalStatus
  comments : String
  signature : String
  hodComments : Option String
  auditDetails : Option AuditDetails
deriving DecidableEq

/-- `handleAction` from `RequestDetailsModal.tsx` lines 61-93, up to the
`updateRequestStatus` call: a missing signature or a Send-Back without
(trimmed) comments aborts with the corresponding error message before any
call is issued; otherwise the role-conditioned `hodComments` /
`auditDetails` arguments are attached only when `isHOD` / `isAuditor`
hold, and the call argument list is returned. -/
def handleAction (users : List User) (currentUser : User) (request : Request)
    (status : ApprovalStatus) (comments hodComments internalAuditComments : String)
    (finalAmount : String) (parsedFinalAmount : Option Rat)
    (signature : Option String) : Except String UpdateCallArgs :=
  match signature with
  | none => .error "Please provide your signature to complete this action."
  | some s =>
    if status = ApprovalStatus.SENT_BACK ∧ jsTrim comments = "" then
      .error "Comments are required when sending a request back for correction."
    else
      .ok
        { requestId := request.id
          approverId := currentUser.id
          action := status
          comments := comments
          signature := s
          hodComments := if isHOD currentUser request then some hodComments else none
          auditDetails :=
            if isAuditor users currentUser request then
              some { internalAuditComments := internalAuditComments
                     finalAmount := computeAuditFinalAmount finalAmount parsedFinalAmount }
            else none }

/-- The parameter record of the `handle_request_action` RPC. -/
structure HandleRequestActionPayload where
  p_request_id : String
  p_action : ApprovalStatus
  p_comments : Option String
  p_signature : String
  p_hod_comments : Option String
  p_internal_audit_comments : Option String
  p_final_amount : Option Rat
deriving DecidableEq

/-- `updateRequestStatus` from `AuthContext.tsx` (RequestContext provider)
lines 356-362: builds the `handle_request_action` RPC parameter record.
Falsy optional fields are coerced to `null` by `|| null`; the
`approverId` argument is not forwarded at all. -/
def updateRequestStatusPayload (requestId approverId : String)
    (action : ApprovalStatus) (comments signature : String)
    (hodComments : Option String) (auditDetails : Option AuditDetails) :
    HandleRequestActionPayload :=
  { p_request_id := requestId
    p_action := action
    p_comments := if comments = "" then none else some comments
    p_signature := signature
    p_hod_comments := jsStrOrNull hodComments
    p_internal_audit_comments :=
      jsStrOrNull (auditDetails.map (fun a => a.internalAuditComments))
    p_final_amount := jsNumOrNull (auditDetails.bind (fun a => a.finalAmount)) }

/-- `approvalQueueForDb` inside `updateRequest` (`AuthContext.tsx` lines
335-338): on resubmission the client rebuilds every queue entry with status
`PENDING`, keeping only the user id and a refreshed email, discarding all
prior comments, signatures and timestamps. -/
def approvalQueueForDb (users : List User) (queue : List Approver) : List Approver :=
  queue.map (fun approver =>
    { userId := approver.userId
      userEmail :=
        jsStrOrOpt ((users.find? (fun u => u.id == approver.userId)).map (fun u => u.email))
          approver.userEmail
      status := ApprovalStatus.PENDING })

/-- The typed error kinds of spec section 7. -/
inductive WorkflowError
  | NotAuthorized
  | InvalidTransition
  | StaleState
  | NotFound
deriving DecidableEq

/-- The queue entry written by an accepted action: `entry.status` is set to
the action value, `approvedAt` to the action's timestamp, and the comment /
signature / role-conditioned fields to the payload's values. -/
def appliedEntry (entry : Approver) (payload : HandleRequestActionPayload)
    (now : String) : Approver :=
  { entry with
    status := payload.p_action
    comments := payload.p_comments
    approvedAt := some now
    signature := some payload.p_signature
    hodComments := payload.p_hod_comments
    internalAuditComments := payload.p_internal_audit_comments
    finalAmount := payload.p_final_amount }

/-- Modelled from the spec: the server-side database function
`handle_request_action` invoked by `updateRequestStatus` is not in the
repository's source tree; this is the Approval Engine transition of spec
section 4.1 applied to a loaded request.  Preconditions: the request is
Pending, the current index is in bounds, the actor (derived server-side
from the authenticated session) is the entry at the current index, a
non-empty signature is supplied, and a Send-Back carries comments.  The
transition table: Approve advances the index by one and sets the overall
status to Approved exactly when the new index equals the queue length;
Reject / Send-Back leave the index unchanged and set the terminal status.
Per spec section 9 the original engine accepts the role-conditioned payload
fields as sent by the client (role gating happens client-side), so no
precondition-6 rejection is modelled here. -/
def handleRequestAction (req : Request) (actorId : String)
    (payload : HandleRequestActionPayload) (now : String) :
    Except WorkflowError Request :=
  if req.status ≠ ApprovalStatus.PENDING then .error .InvalidTransition
  else
    match req.approvalQueue[req.currentApproverIndex]? with
    | none => .error .InvalidTransition
    | some entry =>
      if entry.userId ≠ actorId then .error .NotAuthorized
      else if payload.p_signature = "" then .error .InvalidTransition
      else if payload.p_action = ApprovalStatus.SENT_BACK ∧ payload.p_comments = none then
        .error .InvalidTransition
      else
        match payload.p_action with
        | ApprovalStatus.APPROVED =>
          .ok { req with
                approvalQueue :=
                  req.approvalQueue.set req.currentApproverIndex
                    (appliedEntry entry payload now)
                currentApproverIndex := req.currentApproverIndex + 1
                status :=
                  if req.currentApproverIndex + 1 = req.approvalQueue.length then
                    ApprovalStatus.APPROVED
                  else ApprovalStatus.PENDING }
        | ApprovalStatus.REJECTED =>
          .ok { req with
                approvalQueue :=
                  req.approvalQueue.set req.currentApproverIndex
                    (appliedEntry entry payload now)
                status := ApprovalStatus.REJECTED }
        | ApprovalStatus.SENT_BACK =>
          .ok { req with
                approvalQueue :=
                  req.approvalQueue.set req.currentApproverIndex
                    (appliedEntry entry payload now)
                status := ApprovalStatus.SENT_BACK }
        | _ => .error .InvalidTransition

/-- Modelled from the spec: the Request Store's
`conditionalUpdate(requestId, expectedIndex, expectedStatus, mutator)`
operation (spec section 6).  The mutator is applied and the single write is
performed only when the stored request still carries the expected
optimistic-concurrency token `(currentApproverIndex, status)`; otherwise
the caller receives `StaleState`. -/
def conditionalUpdate (store : List Request) (requestId : String)
    (expectedIndex : Nat) (expectedStatus : ApprovalStatus)
    (mutator : Request → Except WorkflowError Request) :
    Except WorkflowError (List Request) :=
  match store.find? (fun r => r.id == requestId) with
  | none => .error .NotFound
  | some req =>
    if req.currentApproverIndex ≠ expectedIndex ∨ req.status ≠ expectedStatus then
      .error .StaleState
    else
      match mutator req with
      | .error e => .error e
      | .ok req' => .ok (store.map (fun r => if r.id == requestId then req' else r))

/-- Modelled from the spec: the Workflow Service `apply` operation (spec
sections 2 and 4.2) — the engine transition persisted through a single
conditional write keyed on the `(requestId, expectedIndex, expectedStatus)`
token that the caller read. -/
def serviceApply (store : List Request) (requestId actorId : String)
    (payload : HandleRequestActionPayload) (expectedIndex : Nat)
    (expectedStatus : ApprovalStatus) (now : String) :
    Except WorkflowError (List Request) :=
  conditionalUpdate store requestId expectedIndex expectedStatus
    (fun req => handleRequestAction req actorId payload now)

/-- The state of the store after an `apply` attempt: unchanged when the
attempt fails (the conditional write is atomic; a rejected attempt never
leaves a partial mutation). -/
def storeAfter (store : List Request) (requestId actorId : String)
    (payload : HandleRequestActionPayload) (expectedIndex : Nat)
    (expectedStatus : ApprovalStatus) (now : String) : List Request :=
  match serviceApply store requestId actorId payload expectedIndex expectedStatus now with
  | .ok store' => store'
  | .error _ => store

/-- Modelled from the spec: the server-side database function
`resubmit_request_as_admin` invoked by `updateRequest` is not in the
repository's source tree; this is the Workflow Service `resubmit` operation
of spec section 4.2: permitted only when the stored status is `SentBack`
and the actor is an administrator; fully replaces the details, attachment
reference and queue membership, and resets `status = Pending`,
`currentApproverIndex = 0`. -/
def resubmitRequestAsAdmin (store : List Request) (actor : User)
    (requestId : String) (newRequesterName : String) (newDetails : Details)
    (newQueue : List Approver) (newSignature : Option String)
    (newVendorId : Option String) : Except WorkflowError (List Request) :=
  if actor.role ≠ UserRole.admin then .error .NotAuthorized
  else
    match store.find? (fun r => r.id == requestId) with
    | none => .error .NotFound
    | some req =>
      if req.status ≠ ApprovalStatus.SENT_BACK then .error .InvalidTransition
      else
        let req' := { req with
                      requesterName := newRequesterName
                      details := newDetails
                      approvalQueue := newQueue
                      status := ApprovalStatus.PENDING
                      currentApproverIndex := 0
                      requesterSignature := newSignature
                      vendorId := newVendorId }
        .ok (store.map (fun r => if r.id == requestId then req' else r))

/-- `updateRequest` from `AuthContext.tsx` lines 313-354 composed with the
modelled `resubmit_request_as_admin` RPC: the client rebuilds the queue
with every entry `PENDING` (`approvalQueueForDb`) and submits the edited
request for resubmission. -/
def updateRequest (users : List User) (store : List Request) (actor : User)
    (updatedRequestData : Request) : Except WorkflowError (List Request) :=
  resubmitRequestAsAdmin store actor updatedRequestData.id
    updatedRequestData.requesterName updatedRequestData.details
    (approvalQueueForDb users updatedRequestData.approvalQueue)
    updatedRequestData.requesterSignature updatedRequestData.vendorId

/-- Modelled from the spec: the server-side database function
`update_item_request_status_as_admin` invoked by `updateItemRequestStatus`
is not in the repository's source tree; this is the administrator-only
`resolveAdHocItem` operation of spec section 4.2 — it sets the overall
status directly with no queue interaction. -/
def updateItemRequestStatusAsAdmin (store : List Request) (actor : User)
    (requestId : String) (newStatus : ApprovalStatus) :
    Except WorkflowError (List Request) :=
  if actor.role ≠ UserRole.admin then .error .NotAuthorized
  else
    match store.find? (fun r => r.id == requestId) with
    | none => .error .NotFound
    | some req =>
      let req' := { req with status := newStatus }
      .ok (store.map (fun r => if r.id == requestId then req' else r))

/-- `notif-$\x7breq.id\x7d-$\x7breq.status\x7d` — the base notification id
of the Dashboard derivation (`Dashboard` effect, line 56). -/
def baseNotifId (req : Request) : String :=
  "notif-" ++ req.id ++ "-" ++ statusText req.status

/-- `notif-comment-$\x7breq.id\x7d-$\x7bcomment.createdAt\x7d` — the id of a
comment notification (`Dashboard` effect, line 87). -/
def commentNotifId (req : Request) (comment : PdfComment) : String :=
  "notif-comment-" ++ req.id ++ "-" ++ comment.createdAt

/-- The commenter display name of a comment notification (`Dashboard`
effect, line 88). -/
def commenterName (users : List User) (comment : PdfComment) : String :=
  jsStrOr (comment.userEmail.map (fun e => (e.splitOn "@").headD ""))
    (jsStrOr ((users.find? (fun u => u.id == comment.userId)).map
        (fun u => (u.email.splitOn "@").headD ""))
      "a user")

/-- The per-comment notifications of the `Dashboard` derivation effect
(lines 83-99): one notification per attached pdf comment whose author is
not the viewer, with id derived from the request id and the comment's
timestamp. -/
def commentNotifs (users : List User) (currentUser : User)
    (readNotifIds : List String) (req : Request) : List Notification :=
  req.pdfComments.filterMap (fun comment =>
    if comment.userId == currentUser.id then none
    else
      some { id := commentNotifId req comment
             requestId := req.id
             message := "New comment on " ++ req.id ++ " from "
               ++ commenterName users comment ++ ": \""
               ++ comment.comment.take 40 ++ "...\""
             isRead := readNotifIds.contains (commentNotifId req comment)
             createdAt := comment.createdAt })

/-- The notifications generated for one request by the `Dashboard`
notification-derivation effect (lines 55-101): an "awaiting your approval"
entry for the approver at the current index of a Pending request, a
terminal-status entry for administrators, and one entry per attached pdf
comment authored by someone other than the administrator viewer.  Each
entry's `isRead` is the membership of its id in the viewer's read-id set. -/
def requestNotifs (users : List User) (currentUser : User)
    (readNotifIds : List String) (req : Request) : List Notification :=
  let approverPart : List Notification :=
    if currentUser.role = UserRole.approver ∧ req.status = ApprovalStatus.PENDING
        ∧ req.currentApproverIndex < req.approvalQueue.length then
      match req.approvalQueue[req.currentApproverIndex]? with
      | some entry =>
        if entry.userId == currentUser.id then
          let notifId := baseNotifId req ++ "-" ++ currentUser.id
          [ { id := notifId
              requestId := req.id
              message := "New request awaiting your approval: " ++ req.id
              isRead := readNotifIds.contains notifId
              createdAt := req.createdAt } ]
        else []
      | none => []
    else []
  let adminStatusPart : List Notification :=
    if currentUser.role = UserRole.admin
        ∧ (req.status = ApprovalStatus.SENT_BACK ∨ req.status = ApprovalStatus.REJECTED
            ∨ req.status = ApprovalStatus.COMPLETED) then
      [ { id := baseNotifId req
          requestId := req.id
          message := "Request " ++ req.id ++ " has been " ++ statusText req.status ++ "."
          isRead := readNotifIds.contains (baseNotifId req)
          createdAt := req.createdAt } ]
    else []
  let commentPart : List Notification :=
    if currentUser.role = UserRole.admin then
      commentNotifs users currentUser readNotifIds req
    else []
  approverPart ++ adminStatusPart ++ commentPart

/-- The descending-timestamp ordering used by the notification sort
(`Dashboard` line 103, comparator `b.createdAt - a.createdAt`). -/
def notifDesc (a b : Notification) : Prop :=
  dateLe b.createdAt a.createdAt

instance : DecidableRel notifDesc := fun a b =>
  inferInstanceAs (Decidable (dateLe b.createdAt a.createdAt))

instance : IsTotal Notification notifDesc :=
  ⟨fun a b => lexLe_total b.createdAt.data a.createdAt.data⟩

instance : IsTrans Notification notifDesc :=
  ⟨fun _ _ _ h1 h2 => lexLe_trans _ _ _ h2 h1⟩

/-- The Notification Deriver: the `Dashboard` notification effect (lines
49-105) as the stateless function of spec section 4.3 — all generated
notifications, sorted newest-first by originating timestamp with a stable
sort (JS `Array.prototype.sort` is stable). -/
def deriveNotifications (users : List User) (currentUser : User)
    (readNotifIds : List String) (requests : List Request) : List Notification :=
  (requests.flatMap (requestNotifs users currentUser readNotifIds)).insertionSort notifDesc

/-! ### Helper lemmas -/

theorem set_self_of_getElem? {α : Type _} (l : List α) (i : Nat) (a : α)
    (h : l[i]? = some a) : l.set i a = l := by
  apply List.ext_getElem?
  intro j
  rw [List.getElem?_set]
  by_cases hj : i = j
  · subst hj
    have hlt : i < l.length := by
      by_contra hge
      rw [List.getElem?_eq_none (by omega)] at h
      exact Option.noConfusion h
    simp [hlt, h]
  · simp [hj]

theorem find?_map_update (store : List Request) (rid : String) (req' : Request)
    (h : req'.id = rid) :
    (store.map (fun r => if r.id == rid then req' else r)).find? (fun r => r.id == rid)
      = (store.find? (fun r => r.id == rid)).map (fun _ => req') := by
  induction store with
  | nil => rfl
  | cons a t ih =>
    by_cases ha : a.id = rid
    · rw [List.map_cons, if_pos (by simpa using ha),
        List.find?_cons_of_pos _ (by simpa using h),
        List.find?_cons_of_pos _ (by simpa using ha)]
      rfl
    · rw [List.map_cons, if_neg (by simpa using ha),
        List.find?_cons_of_neg _ (by simpa using ha),
        List.find?_cons_of_neg _ (by simpa using ha), ih]

theorem handleRequestAction_ok_approved (req : Request) (actorId : String)
    (payload : HandleRequestActionPayload) (now : String) (entry : Approver)
    (hstatus : req.status = ApprovalStatus.PENDING)
    (hentry : req.approvalQueue[req.currentApproverIndex]? = some entry)
    (hactor : entry.userId = actorId)
    (hsig : payload.p_signature ≠ "")
    (hact : payload.p_action = ApprovalStatus.APPROVED) :
    handleRequestAction req actorId payload now =
      .ok { req with
            approvalQueue :=
              req.approvalQueue.set req.currentApproverIndex (appliedEntry entry payload now)
            currentApproverIndex := req.currentApproverIndex + 1
            status :=
              if req.currentApproverIndex + 1 = req.approvalQueue.length then
                ApprovalStatus.APPROVED
              else ApprovalStatus.PENDING } := by
  simp [handleRequestAction, hstatus, hentry, hactor, hsig, hact]

theorem handleRequestAction_ok_rejected (req : Request) (actorId : String)
    (payload : HandleRequestActionPayload) (now : String) (entry : Approver)
    (hstatus : req.status = ApprovalStatus.PENDING)
    (hentry : req.approvalQueue[req.currentApproverIndex]? = some entry)
    (hactor : entry.userId = actorId)
    (hsig : payload.p_signature ≠ "")
    (hact : payload.p_action = ApprovalStatus.REJECTED) :
    handleRequestAction req actorId payload now =
      .ok { req with
            approvalQueue :=
              req.approvalQueue.set req.currentApproverIndex (appliedEntry entry payload now)
            status := ApprovalStatus.REJECTED } := by
  simp [handleRequestAction, hstatus, hentry, hactor, hsig, hact]

theorem handleRequestAction_ok_sentBack (req : Request) (actorId : String)
    (payload : HandleRequestActionPayload) (now : String) (entry : Approver)
    (hstatus : req.status = ApprovalStatus.PENDING)
    (hentry : req.approvalQueue[req.currentApproverIndex]? = some entry)
    (hactor : entry.userId = actorId)
    (hsig : payload.p_signature ≠ "")
    (hact : payload.p_action = ApprovalStatus.SENT_BACK)
    (hcomments : payload.p_comments ≠ none) :
    handleRequestAction req actorId payload now =
      .ok { req with
            approvalQueue :=
              req.approvalQueue.set req.currentApproverIndex (appliedEntry entry payload now)
            status := ApprovalStatus.SENT_BACK } := by
  simp [handleRequestAction, hstatus, hentry, hactor, hsig, hact, hcomments]

theorem handleRequestAction_notAuthorized (req : Request) (actorId : String)
    (payload : HandleRequestActionPayload) (now : String) (entry : Approver)
    (hstatus : req.status = ApprovalStatus.PENDING)
    (hentry : req.approvalQueue[req.currentApproverIndex]? = some entry)
    (hactor : entry.userId ≠ actorId) :
    handleRequestAction req actorId payload now = .error .NotAuthorized := by
  simp [handleRequestAction, hstatus, hentry, hactor]

theorem handleRequestAction_ok_shape (req : Request) (actorId : String)
    (payload : HandleRequestActionPayload) (now : String) (req' : Request)
    (h : handleRequestAction req actorId payload now = .ok req') :
    ∃ entry,
      req.approvalQueue[req.currentApproverIndex]? = some entry ∧
      req'.id = req.id ∧
      req'.approvalQueue =
        req.approvalQueue.set req.currentApproverIndex (appliedEntry entry payload now) := by
  unfold handleRequestAction at h
  split at h
  · exact absurd h (by simp)
  · split at h
    · exact absurd h (by simp)
    · rename_i entry hentry
      refine ⟨entry, hentry, ?_⟩
      split at h
      · exact absurd h (by simp)
      · split at h
        · exact absurd h (by simp)
        · split at h
          · exact absurd h (by simp)
          · split at h
            · injection h with h2; rw [← h2]; exact ⟨rfl, rfl⟩
            · injection h with h2; rw [← h2]; exact ⟨rfl, rfl⟩
            · injection h with h2; rw [← h2]; exact ⟨rfl, rfl⟩
            · exact absurd h (by simp)

theorem handleRequestAction_preserves_queue_userIds (req : Request) (actorId : String)
    (payload : HandleRequestActionPayload) (now : String) (req' : Request)
    (h : handleRequestAction req actorId payload now = .ok req') :
    req'.approvalQueue.map (fun a => a.userId)
      = req.approvalQueue.map (fun a => a.userId) := by
  obtain ⟨entry, hentry, _, hqueue⟩ :=
    handleRequestAction_ok_shape req actorId payload now req' h
  rw [hqueue, List.map_set]
  exact set_self_of_getElem? _ _ _
    (by rw [List.getElem?_map, hentry]; rfl)

theorem handleRequestAction_ok_valid (req : Request) (actorId : String)
    (payload : HandleRequestActionPayload) (now : String) (req' : Request)
    (h : handleRequestAction req actorId payload now = .ok req') :
    payload.p_signature ≠ "" ∧
    (payload.p_action = ApprovalStatus.SENT_BACK → payload.p_comments ≠ none) := by
  unfold handleRequestAction at h
  split at h
  · exact absurd h (by simp)
  · split at h
    · exact absurd h (by simp)
    · split at h
      · exact absurd h (by simp)
      · split at h
        · exact absurd h (by simp)
        · rename_i hsig
          split at h
          · exact absurd h (by simp)
          · rename_i hsb
            exact ⟨hsig, fun ha hc => hsb ⟨ha, hc⟩⟩

theorem storeAfter_of_error (store : List Request) (requestId actorId : String)
    (payload : HandleRequestActionPayload) (expectedIndex : Nat)
    (expectedStatus : ApprovalStatus) (now : String) (e : WorkflowError)
    (h : serviceApply store requestId actorId payload expectedIndex expectedStatus now
          = .error e) :
    storeAfter store requestId actorId payload expectedIndex expectedStatus now = store := by
  simp [storeAfter, h]

/-! ### Concrete fixtures used by the witness theorems -/

/-- Sample approver user A. -/
def userA : User := { id := "A", email := "a@zankli.com", role := .approver }

/-- Sample approver user B. -/
def userB : User := { id := "B", email := "b@zankli.com", role := .approver }

/-- Sample administrator. -/
def userAdmin : User := { id := "ADM", email := "admin@zankli.com", role := .admin }

/-- The auditor account fixture. -/
def userAuditor : User := { id := "AUD", email := "auditorzankli@gmail.com", role := .approver }

/-- A Pending procurement request with a two-entry queue [A, B] at index 0. -/
def reqP : Request :=
  { id := "R1", requesterId := "REQ", requesterName := "Requester"
    type := .PROCUREMENT, details := [], status := .PENDING
    approvalQueue := [ { userId := "A", status := .PENDING }
                     , { userId := "B", status := .PENDING } ]
    currentApproverIndex := 0, createdAt := "2024-01-10T08:00:00" }

/-- A valid Approve payload for `reqP`. -/
def payloadApprove : HandleRequestActionPayload :=
  { p_request_id := "R1", p_action := .APPROVED, p_comments := none
    p_signature := "sig", p_hod_comments := none
    p_internal_audit_comments := none, p_final_amount := none }

/-! ### Claims -/

/-- C1: every mutating operation is applied as a single conditional write
keyed on `(requestId, expected currentApproverIndex, expected status)`: of
two concurrent Approve calls against the same `(requestId, index)` exactly
one succeeds, the other receives `StaleState` (leaving the store
unchanged), and the final `currentApproverIndex` advances by exactly 1
(never 2). -/
theorem concurrent_approve_exactly_one
    (store : List Request) (rid actor1 actor2 : String)
    (p1 p2 : HandleRequestActionPayload) (req : Request) (entry : Approver)
    (now1 now2 : String)
    (hfind : store.find? (fun r => r.id == rid) = some req)
    (hstatus : req.status = ApprovalStatus.PENDING)
    (hentry : req.approvalQueue[req.currentApproverIndex]? = some entry)
    (hactor : entry.userId = actor1)
    (hsig : p1.p_signature ≠ "")
    (hact : p1.p_action = ApprovalStatus.APPROVED) :
    ∃ store' req',
      serviceApply store rid actor1 p1 req.currentApproverIndex
          ApprovalStatus.PENDING now1 = .ok store' ∧
      store'.find? (fun r => r.id == rid) = some req' ∧
      req'.currentApproverIndex = req.currentApproverIndex + 1 ∧
      serviceApply store' rid actor2 p2 req.currentApproverIndex
          ApprovalStatus.PENDING now2 = .error .StaleState ∧
      storeAfter store' rid actor2 p2 req.currentApproverIndex
          ApprovalStatus.PENDING now2 = store' := by
  have hid : req.id = rid := by simpa using List.find?_some hfind
  have htrans := handleRequestAction_ok_approved req actor1 p1 now1 entry
    hstatus hentry hactor hsig hact
  set req2 : Request :=
    { req with
      approvalQueue :=
        req.approvalQueue.set req.currentApproverIndex (appliedEntry entry p1 now1)
      currentApproverIndex := req.currentApproverIndex + 1
      status :=
        if req.currentApproverIndex + 1 = req.approvalQueue.length then
          ApprovalStatus.APPROVED
        else ApprovalStatus.PENDING } with hreq2
  have happly1 : serviceApply store rid actor1 p1 req.currentApproverIndex
      ApprovalStatus.PENDING now1
      = .ok (store.map (fun r => if r.id == rid then req2 else r)) := by
    simp [serviceApply, conditionalUpdate, hfind, hstatus, htrans]
  have hfind2 : (store.map (fun r => if r.id == rid then req2 else r)).find?
      (fun r => r.id == rid) = some req2 := by
    rw [find?_map_update _ _ _ (show req2.id = rid from hid), hfind]
    rfl
  have happly2 : serviceApply (store.map (fun r => if r.id == rid then req2 else r))
      rid actor2 p2 req.currentApproverIndex ApprovalStatus.PENDING now2
      = .error .StaleState := by
    have hne : req2.currentApproverIndex ≠ req.currentApproverIndex :=
      Nat.succ_ne_self req.currentApproverIndex
    unfold serviceApply conditionalUpdate
    rw [hfind2]
    simp [hne]
  exact ⟨_, req2, happly1, hfind2, rfl, happly2,
    storeAfter_of_error _ _ _ _ _ _ _ _ happly2⟩

/-- Witness for C1 at a concrete input: approver A approves the two-entry
request `reqP` twice against queue position 0; the first call succeeds and
advances the index to 1, the second receives `StaleState`. -/
theorem concurrent_approve_exactly_one_witness :
    ∃ store' req',
      serviceApply [reqP] "R1" "A" payloadApprove 0 ApprovalStatus.PENDING "2024-02-01T09:00:00"
        = .ok store' ∧
      store'.find? (fun r => r.id == "R1") = some req' ∧
      req'.currentApproverIndex = 0 + 1 ∧
      serviceApply store' "R1" "A" payloadApprove 0 ApprovalStatus.PENDING "2024-02-01T09:00:05"
        = .error .StaleState ∧
      storeAfter store' "R1" "A" payloadApprove 0 ApprovalStatus.PENDING "2024-02-01T09:00:05"
        = store' :=
  concurrent_approve_exactly_one [reqP] "R1" "A" "A" payloadApprove payloadApprove
    reqP { userId := "A", status := .PENDING } "2024-02-01T09:00:00" "2024-02-01T09:00:05"
    (by decide) rfl rfl rfl (by decide) rfl

/-- C2: for every Pending request, exactly the identity at
`approvalQueue[currentApproverIndex]` may successfully apply an action:
every other actor id — the engine never consults a role, so administrators
included — receives `NotAuthorized` with the store unchanged, while the
entitled identity's valid Approve succeeds. -/
theorem only_current_approver_may_act
    (store : List Request) (rid : String) (req : Request) (entry : Approver)
    (hfind : store.find? (fun r => r.id == rid) = some req)
    (hstatus : req.status = ApprovalStatus.PENDING)
    (hentry : req.approvalQueue[req.currentApproverIndex]? = some entry) :
    (∀ (actorId : String) (p : HandleRequestActionPayload) (now : String),
        actorId ≠ entry.userId →
        serviceApply store rid actorId p req.currentApproverIndex
            ApprovalStatus.PENDING now = .error .NotAuthorized ∧
        storeAfter store rid actorId p req.currentApproverIndex
            ApprovalStatus.PENDING now = store) ∧
    (∀ (p : HandleRequestActionPayload) (now : String),
        p.p_signature ≠ "" → p.p_action = ApprovalStatus.APPROVED →
        ∃ store', serviceApply store rid entry.userId p req.currentApproverIndex
            ApprovalStatus.PENDING now = .ok store') := by
  refine ⟨fun actorId p now hne => ?_, fun p now hsig hact => ?_⟩
  · have herr := handleRequestAction_notAuthorized req actorId p now entry
      hstatus hentry (fun h => hne h.symm)
    have happly : serviceApply store rid actorId p req.currentApproverIndex
        ApprovalStatus.PENDING now = .error .NotAuthorized := by
      unfold serviceApply conditionalUpdate
      rw [hfind]
      simp [hstatus, herr]
    exact ⟨happly, storeAfter_of_error _ _ _ _ _ _ _ _ happly⟩
  · have htrans := handleRequestAction_ok_approved req entry.userId p now entry
      hstatus hentry rfl hsig hact
    have happly : serviceApply store rid entry.userId p req.currentApproverIndex
        ApprovalStatus.PENDING now
        = .ok (store.map (fun r =>
            if r.id == rid then
              { req with
                approvalQueue :=
                  req.approvalQueue.set req.currentApproverIndex
                    (appliedEntry entry p now)
                currentApproverIndex := req.currentApproverIndex + 1
                status :=
                  if req.currentApproverIndex + 1 = req.approvalQueue.length then
                    ApprovalStatus.APPROVED
                  else ApprovalStatus.PENDING }
            else r)) := by
      unfold serviceApply conditionalUpdate
      rw [hfind]
      simp [hstatus, htrans]
    exact ⟨_, happly⟩

/-- Witness for C2 at a concrete input: on the Pending request `reqP`
(current approver A), the administrator identity "ADM" receives
`NotAuthorized` with the store unchanged, while A's Approve succeeds. -/
theorem only_current_approver_may_act_witness :
    (serviceApply [reqP] "R1" "ADM" payloadApprove 0 ApprovalStatus.PENDING "2024-02-01T09:00:00"
        = .error .NotAuthorized ∧
      storeAfter [reqP] "R1" "ADM" payloadApprove 0 ApprovalStatus.PENDING "2024-02-01T09:00:00" = [reqP]) ∧
    (∃ store', serviceApply [reqP] "R1" "A" payloadApprove 0 ApprovalStatus.PENDING "2024-02-01T09:00:00"
        = .ok store') :=
  ⟨(only_current_approver_may_act [reqP] "R1" reqP
      { userId := "A", status := .PENDING } (by decide) rfl rfl).1
      "ADM" payloadApprove "2024-02-01T09:00:00" (by decide),
   (only_current_approver_may_act [reqP] "R1" reqP
      { userId := "A", status := .PENDING } (by decide) rfl rfl).2
      payloadApprove "2024-02-01T09:00:00" (by decide) rfl⟩

/-- C3: the transition table for an accepted action on a Pending request:
Approve on the last queue entry sets the overall status to `Approved` and
leaves the index equal to the queue length; Approve on an earlier entry
keeps the status `Pending` and increments the index by exactly 1; Reject
and Send-Back set the status `Rejected` / `SentBack` and never advance the
index. -/
theorem transition_table
    (req : Request) (actorId : String) (p : HandleRequestActionPayload)
    (now : String) (entry : Approver)
    (hstatus : req.status = ApprovalStatus.PENDING)
    (hentry : req.approvalQueue[req.currentApproverIndex]? = some entry)
    (hactor : entry.userId = actorId)
    (hsig : p.p_signature ≠ "") :
    (p.p_action = ApprovalStatus.APPROVED →
      req.currentApproverIndex + 1 = req.approvalQueue.length →
      ∃ req', handleRequestAction req actorId p now = .ok req' ∧
        req'.status = ApprovalStatus.APPROVED ∧
        req'.currentApproverIndex = req.approvalQueue.length) ∧
    (p.p_action = ApprovalStatus.APPROVED →
      req.currentApproverIndex + 1 ≠ req.approvalQueue.length →
      ∃ req', handleRequestAction req actorId p now = .ok req' ∧
        req'.status = ApprovalStatus.PENDING ∧
        req'.currentApproverIndex = req.currentApproverIndex + 1) ∧
    (p.p_action = ApprovalStatus.REJECTED →
      ∃ req', handleRequestAction req actorId p now = .ok req' ∧
        req'.status = ApprovalStatus.REJECTED ∧
        req'.currentApproverIndex = req.currentApproverIndex) ∧
    (p.p_action = ApprovalStatus.SENT_BACK → p.p_comments ≠ none →
      ∃ req', handleRequestAction req actorId p now = .ok req' ∧
        req'.status = ApprovalStatus.SENT_BACK ∧
        req'.currentApproverIndex = req.currentApproverIndex) := by
  refine ⟨fun hact hlen => ?_, fun hact hlen => ?_, fun hact => ?_, fun hact hcomments => ?_⟩
  · exact ⟨_, handleRequestAction_ok_approved req actorId p now entry
      hstatus hentry hactor hsig hact, by simp [hlen], hlen⟩
  · exact ⟨_, handleRequestAction_ok_approved req actorId p now entry
      hstatus hentry hactor hsig hact, by simp [hlen], rfl⟩
  · exact ⟨_, handleRequestAction_ok_rejected req actorId p now entry
      hstatus hentry hactor hsig hact, rfl, rfl⟩
  · exact ⟨_, handleRequestAction_ok_sentBack req actorId p now entry
      hstatus hentry hactor hsig hact hcomments, rfl, rfl⟩

/-- A valid Reject payload for `reqP`. -/
def payloadReject : HandleRequestActionPayload :=
  { payloadApprove with p_action := .REJECTED }

/-- Witness for C3 at concrete inputs: A approving `reqP` (index 0 of 2)
keeps the status Pending and advances the index to 1; A rejecting `reqP`
sets the status Rejected and leaves the index at 0. -/
theorem transition_table_witness :
    (∃ req', handleRequestAction reqP "A" payloadApprove "2024-02-01T09:00:00" = .ok req' ∧
      req'.status = ApprovalStatus.PENDING ∧ req'.currentApproverIndex = 0 + 1) ∧
    (∃ req', handleRequestAction reqP "A" payloadReject "2024-02-01T09:00:00" = .ok req' ∧
      req'.status = ApprovalStatus.REJECTED ∧ req'.currentApproverIndex = 0) :=
  ⟨(transition_table reqP "A" payloadApprove "2024-02-01T09:00:00" { userId := "A", status := .PENDING }
      rfl rfl rfl (by decide)).2.1 rfl (by decide),
   (transition_table reqP "A" payloadReject "2024-02-01T09:00:00" { userId := "A", status := .PENDING }
      rfl rfl rfl (by decide)).2.2.1 rfl⟩

/-- C4: resubmission (the admin Edit path for a Sent-Back request, going
through `updateRequest` and the resubmission RPC) is permitted only when
the stored status is `SentBack` and the actor is an administrator; it
resets the overall status to Pending, the index to 0 and every queue
entry's status to Pending regardless of the prior entries' statuses, and
fully replaces the details; the queue-processing engine itself never
changes the queue's membership, leaving resubmission as the only
composition-changing operation after creation. -/
theorem resubmission_resets_and_is_gated
    (users : List User) (store : List Request) (actor : User)
    (updated : Request) :
    (actor.role ≠ UserRole.admin →
      updateRequest users store actor updated = .error .NotAuthorized) ∧
    (∀ req, store.find? (fun r => r.id == updated.id) = some req →
      req.status ≠ ApprovalStatus.SENT_BACK →
      actor.role = UserRole.admin →
      updateRequest users store actor updated = .error .InvalidTransition) ∧
    (∀ req, store.find? (fun r => r.id == updated.id) = some req →
      req.status = ApprovalStatus.SENT_BACK →
      actor.role = UserRole.admin →
      ∃ store' req',
        updateRequest users store actor updated = .ok store' ∧
        store'.find? (fun r => r.id == updated.id) = some req' ∧
        req'.status = ApprovalStatus.PENDING ∧
        req'.currentApproverIndex = 0 ∧
        (∀ e ∈ req'.approvalQueue, e.status = ApprovalStatus.PENDING) ∧
        req'.details = updated.details) ∧
    (∀ (req : Request) (actorId : String) (p : HandleRequestActionPayload)
        (now : String) (req' : Request),
      handleRequestAction req actorId p now = .ok req' →
      req'.approvalQueue.map (fun a => a.userId)
        = req.approvalQueue.map (fun a => a.userId)) := by
  refine ⟨fun hrole => ?_, fun req hfind hsb hrole => ?_,
    fun req hfind hsb hrole => ?_, fun req actorId p now req' h =>
      handleRequestAction_preserves_queue_userIds req actorId p now req' h⟩
  · unfold updateRequest resubmitRequestAsAdmin
    rw [if_pos hrole]
  · unfold updateRequest resubmitRequestAsAdmin
    rw [if_neg (by simp [hrole]), hfind]
    simp [hsb]
  · have hid : req.id = updated.id := by simpa using List.find?_some hfind
    set req2 : Request :=
      { req with
        requesterName := updated.requesterName
        details := updated.details
        approvalQueue := approvalQueueForDb users updated.approvalQueue
        status := ApprovalStatus.PENDING
        currentApproverIndex := 0
        requesterSignature := updated.requesterSignature
        vendorId := updated.vendorId } with hreq2
    have hok : updateRequest users store actor updated
        = .ok (store.map (fun r => if r.id == updated.id then req2 else r)) := by
      unfold updateRequest resubmitRequestAsAdmin
      rw [if_neg (by simp [hrole]), hfind]
      simp [hsb, hreq2]
    have hfind2 : (store.map (fun r => if r.id == updated.id then req2 else r)).find?
        (fun r => r.id == updated.id) = some req2 := by
      rw [find?_map_update _ _ _ (show req2.id = updated.id from hid), hfind]
      rfl
    refine ⟨_, req2, hok, hfind2, rfl, rfl, ?_, rfl⟩
    intro e he
    simp only [hreq2, approvalQueueForDb, List.mem_map] at he
    obtain ⟨a, _, rfl⟩ := he
    rfl

/-- A Sent-Back leave request: A sent it back with a comment, B untouched. -/
def reqSB : Request :=
  { id := "R2", requesterId := "REQ", requesterName := "Requester"
    type := .LEAVE, details := [("selectedHODId", "B")], status := .SENT_BACK
    approvalQueue := [ { userId := "A", status := .SENT_BACK, comments := some "fix" }
                     , { userId := "B", status := .PENDING } ]
    currentApproverIndex := 0, createdAt := "2024-01-20T08:00:00" }

/-- The admin's edited draft of `reqSB`, with a different queue membership. -/
def reqSBdraft : Request :=
  { reqSB with
    approvalQueue := [ { userId := "A", status := .SENT_BACK, comments := some "fix" }
                     , { userId := "C", status := .APPROVED } ]
    requesterSignature := some "newsig" }

/-- Witness for C4 at a concrete input: the administrator resubmits the
Sent-Back request `reqSB` with the edited draft `reqSBdraft`; the result
is Pending at index 0 with every (new) queue entry Pending; the approver
identity B cannot resubmit. -/
theorem resubmission_resets_and_is_gated_witness :
    (updateRequest [userA, userB, userAdmin] [reqSB] userB reqSBdraft
      = .error .NotAuthorized) ∧
    (∃ store' req',
      updateRequest [userA, userB, userAdmin] [reqSB] userAdmin reqSBdraft = .ok store' ∧
      store'.find? (fun r => r.id == reqSBdraft.id) = some req' ∧
      req'.status = ApprovalStatus.PENDING ∧
      req'.currentApproverIndex = 0 ∧
      (∀ e ∈ req'.approvalQueue, e.status = ApprovalStatus.PENDING) ∧
      req'.details = reqSBdraft.details) :=
  ⟨(resubmission_resets_and_is_gated [userA, userB, userAdmin] [reqSB] userB
      reqSBdraft).1 (by decide),
   (resubmission_resets_and_is_gated [userA, userB, userAdmin] [reqSB] userAdmin
      reqSBdraft).2.2.1 reqSB (by decide) rfl rfl⟩

/-- C5: precondition validation is atomic and precedes any mutation: an
action without a signature fails in `handleAction` before any call is
issued, and an empty-signature payload fails in the engine with
`InvalidTransition`; a Send-Back whose trimmed comments are empty fails in
`handleAction`, and a comment-less Send-Back payload fails in the engine
with `InvalidTransition`; in every such failure the store is unchanged.  A
Send-Back with non-empty comments and a signature succeeds end to end. -/
theorem preconditions_before_mutation
    (users : List User) (u : User) (req : Request)
    (action : ApprovalStatus) (comments hodIn auditIn finalIn : String)
    (parsed : Option Rat) :
    (handleAction users u req action comments hodIn auditIn finalIn parsed none
      = .error "Please provide your signature to complete this action.") ∧
    (action = ApprovalStatus.SENT_BACK → jsTrim comments = "" → ∀ s : String,
      handleAction users u req action comments hodIn auditIn finalIn parsed (some s)
        = .error "Comments are required when sending a request back for correction.") ∧
    (∀ (store : List Request) (rid actorId : String)
        (p : HandleRequestActionPayload) (i : Nat) (st : ApprovalStatus) (now : String),
      p.p_signature = "" ∨
          (p.p_action = ApprovalStatus.SENT_BACK ∧ p.p_comments = none) →
      (∀ store', serviceApply store rid actorId p i st now ≠ .ok store') ∧
      storeAfter store rid actorId p i st now = store) ∧
    (∀ (p : HandleRequestActionPayload) (now : String) (entry : Approver)
        (actorId : String),
      req.status = ApprovalStatus.PENDING →
      req.approvalQueue[req.currentApproverIndex]? = some entry →
      entry.userId = actorId →
      (p.p_signature = "" ∨
          (p.p_action = ApprovalStatus.SENT_BACK ∧ p.p_comments = none)) →
      handleRequestAction req actorId p now = .error .InvalidTransition) ∧
    (action = ApprovalStatus.SENT_BACK → jsTrim comments ≠ "" →
      ∀ (s : String), s ≠ "" →
      ∀ (entry : Approver) (now : String),
        req.status = ApprovalStatus.PENDING →
        req.approvalQueue[req.currentApproverIndex]? = some entry →
        entry.userId = u.id →
        ∃ call req',
          handleAction users u req action comments hodIn auditIn finalIn parsed (some s)
            = .ok call ∧
          handleRequestAction req u.id
            (updateRequestStatusPayload call.requestId call.approverId call.action
              call.comments call.signature call.hodComments call.auditDetails) now
            = .ok req' ∧
          req'.status = ApprovalStatus.SENT_BACK) := by
  refine ⟨rfl, fun hact htrim s => ?_, fun store rid actorId p i st now hbad => ?_,
    fun p now entry actorId hstatus hentry hactor hbad => ?_,
    fun hact htrim s hs entry now hstatus hentry hactor => ?_⟩
  · simp [handleAction, hact, htrim]
  · have hne : ∀ store', serviceApply store rid actorId p i st now ≠ .ok store' := by
      intro store' hok
      unfold serviceApply conditionalUpdate at hok
      cases hfind : store.find? (fun r => r.id == rid) with
      | none => rw [hfind] at hok; exact Except.noConfusion hok
      | some req1 =>
        rw [hfind] at hok
        split at hok
        · exact Except.noConfusion hok
        · rename_i req3 heq3
          obtain rfl : req1 = req3 := by injection heq3
          dsimp only at hok
          cases htrans : handleRequestAction req1 actorId p now with
          | error e =>
            rw [htrans] at hok
            split at hok
            · exact Except.noConfusion hok
            · exact Except.noConfusion hok
          | ok req2 =>
            obtain ⟨hsig2, hsb2⟩ := handleRequestAction_ok_valid _ _ _ _ _ htrans
            cases hbad with
            | inl hsigEmpty => exact hsig2 hsigEmpty
            | inr hsb => exact hsb2 hsb.1 hsb.2
    refine ⟨hne, ?_⟩
    cases hsa : serviceApply store rid actorId p i st now with
    | ok s' => exact absurd hsa (hne s')
    | error e => simp [storeAfter, hsa]
  · cases hbad with
    | inl hsigEmpty => simp [handleRequestAction, hstatus, hentry, hactor, hsigEmpty]
    | inr hsb =>
      by_cases hsig : p.p_signature = ""
      · simp [handleRequestAction, hstatus, hentry, hactor, hsig]
      · simp [handleRequestAction, hstatus, hentry, hactor, hsig, hsb.1, hsb.2]
  · have hcne : comments ≠ "" := fun h => htrim (by rw [h]; rfl)
    have hcall : handleAction users u req action comments hodIn auditIn finalIn
        parsed (some s)
        = .ok { requestId := req.id
                approverId := u.id
                action := action
                comments := comments
                signature := s
                hodComments := if isHOD u req then some hodIn else none
                auditDetails :=
                  if isAuditor users u req then
                    some { internalAuditComments := auditIn
                           finalAmount := computeAuditFinalAmount finalIn parsed }
                  else none } := by
      simp only [handleAction]
      rw [if_neg (fun h => htrim h.2)]
    refine ⟨_, _, hcall, handleRequestAction_ok_sentBack req u.id _ now entry
      hstatus hentry hactor ?_ ?_ ?_, rfl⟩
    · simpa [updateRequestStatusPayload] using hs
    · simpa [updateRequestStatusPayload] using hact
    · simp [updateRequestStatusPayload, hcne]

/-- Witness for C5 at concrete inputs: on the Pending request `reqP`,
a Send-Back by A without a signature fails with the signature message; a
Send-Back with empty comments fails with the comments message; a Send-Back
with comments "fix" and signature "sig" succeeds and sets the status to
`SentBack`. -/
theorem preconditions_before_mutation_witness :
    (handleAction [] userA reqP ApprovalStatus.SENT_BACK "fix" "" "" "" none none
      = .error "Please provide your signature to complete this action.") ∧
    (handleAction [] userA reqP ApprovalStatus.SENT_BACK "" "" "" "" none (some "sig")
      = .error "Comments are required when sending a request back for correction.") ∧
    (∃ call req',
      handleAction [] userA reqP ApprovalStatus.SENT_BACK "fix" "" "" "" none
          (some "sig") = .ok call ∧
      handleRequestAction reqP "A"
          (updateRequestStatusPayload call.requestId call.approverId call.action
            call.comments call.signature call.hodComments call.auditDetails) "2024-02-01T09:00:00"
        = .ok req' ∧
      req'.status = ApprovalStatus.SENT_BACK) :=
  ⟨(preconditions_before_mutation [] userA reqP ApprovalStatus.SENT_BACK
      "fix" "" "" "" none).1,
   (preconditions_before_mutation [] userA reqP ApprovalStatus.SENT_BACK
      "" "" "" "" none).2.1 rfl rfl "sig",
   (preconditions_before_mutation [] userA reqP ApprovalStatus.SENT_BACK
      "fix" "" "" "" none).2.2.2.2 rfl (by decide) "sig" (by decide)
      { userId := "A", status := .PENDING } "2024-02-01T09:00:00" rfl rfl rfl⟩

/-- C6: role-conditioned entry fields are accepted only from the entitled
identity.  For any action that goes through `handleAction` and is accepted
by the engine: unless the actor is the designated HOD of a Leave request,
the written entry's `hodComments` is empty; unless the actor is the
directory-resolved auditor identity, the written entry's
`internalAuditComments` and `finalAmount` are empty. -/
theorem role_conditioned_fields_gated
    (users : List User) (u : User) (req : Request)
    (action : ApprovalStatus) (comments hodIn auditIn finalIn : String)
    (parsed : Option Rat) (s : String) (call : UpdateCallArgs)
    (now : String) (req' : Request)
    (hcall : handleAction users u req action comments hodIn auditIn finalIn parsed
        (some s) = .ok call)
    (htrans : handleRequestAction req u.id
        (updateRequestStatusPayload call.requestId call.approverId call.action
          call.comments call.signature call.hodComments call.auditDetails) now
        = .ok req') :
    (¬ (req.type = RequestType.LEAVE ∧ selectedHODId req = some u.id) →
      ∀ e', req'.approvalQueue[req.currentApproverIndex]? = some e' →
        e'.hodComments = none) ∧
    (auditorId users ≠ some u.id →
      ∀ e', req'.approvalQueue[req.currentApproverIndex]? = some e' →
        e'.internalAuditComments = none ∧ e'.finalAmount = none) := by
  simp only [handleAction] at hcall
  split at hcall
  · exact absurd hcall (by simp)
  · injection hcall with hcall
    obtain ⟨entry, hentry, _, hqueue⟩ :=
      handleRequestAction_ok_shape _ _ _ _ _ htrans
    have hlt : req.currentApproverIndex < req.approvalQueue.length := by
      by_contra hge
      rw [List.getElem?_eq_none (by omega)] at hentry
      exact Option.noConfusion hentry
    subst hcall
    refine ⟨fun hnh e' he' => ?_, fun hna e' he' => ?_⟩
    · have hhod : isHOD u req = false := by
        cases hh : isHOD u req
        · rfl
        · exfalso
          apply hnh
          simp only [isHOD, Bool.and_eq_true, decide_eq_true_eq, beq_iff_eq] at hh
          exact ⟨hh.1.1, hh.2⟩
      rw [hqueue, List.getElem?_set_self hlt] at he'
      injection he' with he'
      rw [← he']
      simp [appliedEntry, updateRequestStatusPayload, hhod, jsStrOrNull]
    · have haud : isAuditor users u req = false := by
        cases hh : isAuditor users u req
        · rfl
        · exfalso
          apply hna
          simp only [isAuditor, Bool.and_eq_true, beq_iff_eq] at hh
          exact hh.2
      rw [hqueue, List.getElem?_set_self hlt] at he'
      injection he' with he'
      rw [← he']
      constructor
      · simp [appliedEntry, updateRequestStatusPayload, haud, jsStrOrNull]
      · simp [appliedEntry, updateRequestStatusPayload, haud, jsNumOrNull]

/-- A Pending Leave request with queue [A, B] and designated HOD B. -/
def reqLeave : Request :=
  { id := "R3", requesterId := "REQ", requesterName := "Requester"
    type := .LEAVE, details := [("selectedHODId", "B")], status := .PENDING
    approvalQueue := [ { userId := "A", status := .PENDING }
                     , { userId := "B", status := .PENDING } ]
    currentApproverIndex := 0, createdAt := "2024-01-30T08:00:00" }

/-- The call produced by `handleAction` when A (neither the HOD of
`reqLeave` nor the auditor) approves while typing into the HOD and audit
input fields: the role-conditioned arguments are dropped. -/
def c6call : UpdateCallArgs :=
  { requestId := "R3", approverId := "A", action := .APPROVED
    comments := "ok", signature := "sig", hodComments := none
    auditDetails := none }

/-- The request persisted after `c6call` is accepted by the engine. -/
def c6req' : Request :=
  { reqLeave with
    approvalQueue := [ { userId := "A", status := .APPROVED, comments := some "ok"
                         approvedAt := some "2024-02-01T09:00:00", signature := some "sig" }
                     , { userId := "B", status := .PENDING } ]
    currentApproverIndex := 1 }

/-- Witness for C6 at a concrete input: A, who is neither the designated
HOD of the Leave request `reqLeave` nor the auditor, approves while
supplying HOD and audit field values; the persisted entry carries none of
them. -/
theorem role_conditioned_fields_gated_witness :
    ∃ e', c6req'.approvalQueue[0]? = some e' ∧ e'.hodComments = none ∧
      e'.internalAuditComments = none ∧ e'.finalAmount = none := by
  have h := role_conditioned_fields_gated [userAuditor, userA, userB] userA reqLeave
    .APPROVED "ok" "sneakyHOD" "sneakyAudit" "5" (some 5) "sig" c6call "2024-02-01T09:00:00" c6req'
    rfl rfl
  exact ⟨_, rfl, h.1 (by decide) _ rfl, (h.2 (by decide) _ rfl).1,
    (h.2 (by decide) _ rfl).2⟩

theorem isRead_of_mem_requestNotifs (users : List User) (currentUser : User)
    (readNotifIds : List String) (req : Request) (n : Notification)
    (hn : n ∈ requestNotifs users currentUser readNotifIds req) :
    n.isRead = readNotifIds.contains n.id := by
  unfold requestNotifs at hn
  simp only [List.mem_append] at hn
  rcases hn with (h | h) | h
  · split at h
    · split at h
      · split at h
        · simp only [List.mem_singleton] at h
          subst h
          rfl
        · exact absurd h (List.not_mem_nil n)
      · exact absurd h (List.not_mem_nil n)
    · exact absurd h (List.not_mem_nil n)
  · split at h
    · simp only [List.mem_singleton] at h
      subst h
      rfl
    · exact absurd h (List.not_mem_nil n)
  · split at h
    · unfold commentNotifs at h
      rw [List.mem_filterMap] at h
      obtain ⟨c, _, hc⟩ := h
      split at hc
      · exact Option.noConfusion hc
      · injection hc with hc
        subst hc
        rfl
    · exact absurd h (List.not_mem_nil n)

/-- C7: the notification derivation is idempotent and order-stable: for a
fixed request collection, viewer and seen-id set it is a pure function, so
evaluating it twice yields identical output; the output is sorted by
originating timestamp descending (newest first); and each item's `isRead`
flag equals the membership of its id in the seen-id set. -/
theorem deriveNotifications_idempotent_sorted_isRead
    (users : List User) (currentUser : User) (readNotifIds : List String)
    (requests : List Request) :
    deriveNotifications users currentUser readNotifIds requests
      = deriveNotifications users currentUser readNotifIds requests ∧
    (deriveNotifications users currentUser readNotifIds requests).Pairwise
      (fun a b => dateLe b.createdAt a.createdAt) ∧
    ∀ n ∈ deriveNotifications users currentUser readNotifIds requests,
      n.isRead = readNotifIds.contains n.id := by
  refine ⟨rfl, List.sorted_insertionSort notifDesc _, fun n hn => ?_⟩
  rw [deriveNotifications, List.mem_insertionSort, List.mem_flatMap] at hn
  obtain ⟨req, _, hn⟩ := hn
  exact isRead_of_mem_requestNotifs users currentUser readNotifIds req n hn

/-- Witness for C7 at a concrete input: an administrator viewing the
stores [reqP, reqSB] with one already-seen notification id. -/
theorem deriveNotifications_idempotent_sorted_isRead_witness :
    deriveNotifications [userA, userB] userAdmin
        ["notif-R2-Sent Back for Correction"] [reqP, reqSB]
      = deriveNotifications [userA, userB] userAdmin
        ["notif-R2-Sent Back for Correction"] [reqP, reqSB] ∧
    (deriveNotifications [userA, userB] userAdmin
        ["notif-R2-Sent Back for Correction"] [reqP, reqSB]).Pairwise
      (fun a b => dateLe b.createdAt a.createdAt) ∧
    ∀ n ∈ deriveNotifications [userA, userB] userAdmin
        ["notif-R2-Sent Back for Correction"] [reqP, reqSB],
      n.isRead = List.contains ["notif-R2-Sent Back for Correction"] n.id :=
  deriveNotifications_idempotent_sorted_isRead [userA, userB] userAdmin
    ["notif-R2-Sent Back for Correction"] [reqP, reqSB]

/-- C8: `updateRequestStatus` never forwards its `approverId` argument to
the `handle_request_action` RPC — the parameter record it builds, and
therefore the service apply performed with the session-derived actor on
that record, are identical for any two values of `approverId`. -/
theorem updateRequestStatus_ignores_approverId
    (requestId a1 a2 : String) (action : ApprovalStatus)
    (comments sig : String) (hodComments : Option String)
    (auditDetails : Option AuditDetails) :
    updateRequestStatusPayload requestId a1 action comments sig
        hodComments auditDetails
      = updateRequestStatusPayload requestId a2 action comments sig
        hodComments auditDetails ∧
    ∀ (store : List Request) (sessionUserId : String) (i : Nat)
        (st : ApprovalStatus) (now : String),
      serviceApply store requestId sessionUserId
          (updateRequestStatusPayload requestId a1 action comments sig
            hodComments auditDetails) i st now
        = serviceApply store requestId sessionUserId
          (updateRequestStatusPayload requestId a2 action comments sig
            hodComments auditDetails) i st now :=
  ⟨rfl, fun _ _ _ _ _ => rfl⟩

theorem length_filterMap_if {α β : Type _} (p : α → Bool) (g : α → β) :
    ∀ l : List α,
      (l.filterMap (fun a => if p a then none else some (g a))).length
        = (l.filter (fun a => !(p a))).length := by
  intro l
  induction l with
  | nil => rfl
  | cons a t ih =>
    by_cases hp : p a = true
    · simp [List.filterMap_cons, List.filter_cons, hp, ih]
    · simp only [Bool.not_eq_true] at hp
      simp [List.filterMap_cons, List.filter_cons, hp, ih]

theorem string_append_cancel_left (s a b : String) (h : s ++ a = s ++ b) :
    a = b := by
  have hd : s.data ++ a.data = s.data ++ b.data := by
    have := congrArg String.data h
    simpa [String.data_append] using this
  exact String.ext (List.append_cancel_left hd)

/-- A comment on request R1 by A. -/
def c9comment1 : PdfComment :=
  { requestId := "R1", userId := "A", userEmail := some "a@zankli.com"
    comment := "first", createdAt := "2024-01-11T10:00:00" }

/-- A distinct comment on request R1 by B sharing `c9comment1`'s timestamp. -/
def c9comment2 : PdfComment :=
  { requestId := "R1", userId := "B", comment := "second"
    createdAt := "2024-01-11T10:00:00" }

/-- `reqP` with the two timestamp-sharing comments attached. -/
def c9req : Request := { reqP with pdfComments := [c9comment1, c9comment2] }

/-- Counterexample to C9: the two distinct comments `c9comment1` and
`c9comment2` share a timestamp on the same request and derive the same
notification id, so the administrator's derived notification id list
contains a duplicate — distinct comments do collide. -/
theorem comment_notification_ids_collide :
    c9comment1 ≠ c9comment2 ∧
    commentNotifId c9req c9comment1 = commentNotifId c9req c9comment2 ∧
    (deriveNotifications [userA, userB] userAdmin [] [c9req]).map (fun n => n.id)
      = [ "notif-comment-R1-2024-01-11T10:00:00"
        , "notif-comment-R1-2024-01-11T10:00:00" ] ∧
    ¬ ((deriveNotifications [userA, userB] userAdmin [] [c9req]).map
        (fun n => n.id)).Nodup :=
  ⟨by decide, rfl, by decide, by decide⟩

/-- C9 amended: for an administrator viewer, one notification is emitted
per attached comment authored by someone other than the viewer (none are
dropped), with id derived from `(requestId, commentTimestamp)`; the
derived ids are distinct for comments with distinct timestamps, but two
comments sharing a timestamp on the same request receive the same
(colliding) id. -/
theorem admin_comment_notifications
    (users : List User) (viewer : User) (readNotifIds : List String)
    (req : Request) (hrole : viewer.role = UserRole.admin) :
    (commentNotifs users viewer readNotifIds req).length
      = (req.pdfComments.filter (fun c => c.userId != viewer.id)).length ∧
    (∀ c ∈ req.pdfComments, c.userId ≠ viewer.id →
      ∃ n ∈ requestNotifs users viewer readNotifIds req,
        n.id = commentNotifId req c ∧ n.createdAt = c.createdAt) ∧
    (∀ c1 c2 : PdfComment, c1.createdAt ≠ c2.createdAt →
      commentNotifId req c1 ≠ commentNotifId req c2) ∧
    (∀ c1 c2 : PdfComment, c1.createdAt = c2.createdAt →
      commentNotifId req c1 = commentNotifId req c2) := by
  refine ⟨?_, fun c hc hne => ?_, fun c1 c2 hne heq => ?_, fun c1 c2 h => ?_⟩
  · unfold commentNotifs
    exact length_filterMap_if (fun comment => comment.userId == viewer.id)
      (fun comment =>
        ({ id := commentNotifId req comment
           requestId := req.id
           message := "New comment on " ++ req.id ++ " from "
             ++ commenterName users comment ++ ": \""
             ++ comment.comment.take 40 ++ "...\""
           isRead := readNotifIds.contains (commentNotifId req comment)
           createdAt := comment.createdAt } : Notification))
      req.pdfComments
  · have hmem : ∃ n ∈ commentNotifs users viewer readNotifIds req,
        n.id = commentNotifId req c ∧ n.createdAt = c.createdAt := by
      unfold commentNotifs
      refine ⟨{ id := commentNotifId req c
                requestId := req.id
                message := "New comment on " ++ req.id ++ " from "
                  ++ commenterName users c ++ ": \"" ++ c.comment.take 40 ++ "...\""
                isRead := readNotifIds.contains (commentNotifId req c)
                createdAt := c.createdAt },
        List.mem_filterMap.mpr ⟨c, hc, ?_⟩, rfl, rfl⟩
      rw [if_neg (by simpa using hne)]
    obtain ⟨n, hn, h1, h2⟩ := hmem
    refine ⟨n, ?_, h1, h2⟩
    unfold requestNotifs
    simp only [List.mem_append]
    right
    rw [if_pos hrole]
    exact hn
  · exact hne (string_append_cancel_left ("notif-comment-" ++ req.id ++ "-") _ _ heq)
  · unfold commentNotifId
    rw [h]

/-- Witness for C9's amended claim at a concrete input: the admin viewing
`c9req`. -/
theorem admin_comment_notifications_witness :
    (commentNotifs [userA, userB] userAdmin [] c9req).length
      = (c9req.pdfComments.filter (fun c => c.userId != userAdmin.id)).length ∧
    (∀ c ∈ c9req.pdfComments, c.userId ≠ userAdmin.id →
      ∃ n ∈ requestNotifs [userA, userB] userAdmin [] c9req,
        n.id = commentNotifId c9req c ∧ n.createdAt = c.createdAt) ∧
    (∀ c1 c2 : PdfComment, c1.createdAt ≠ c2.createdAt →
      commentNotifId c9req c1 ≠ commentNotifId c9req c2) ∧
    (∀ c1 c2 : PdfComment, c1.createdAt = c2.createdAt →
      commentNotifId c9req c1 = commentNotifId c9req c2) :=
  admin_comment_notifications [userA, userB] userAdmin [] c9req rfl

/-- Counterexample to C10's last clause: the client-side `auditDetails`
computation maps the input string "0" — a truthy string that parses to the
number 0 — to `0`, not to `undefined`; only the later `|| null` coercion
in `updateRequestStatus` turns the 0 into null. -/
theorem computeAuditFinalAmount_zero_not_undefined :
    computeAuditFinalAmount "0" (some 0) = some 0 ∧
    computeAuditFinalAmount "0" (some 0) ≠ none :=
  ⟨by decide, by decide⟩

/-- C10 amended: `updateRequestStatus` coerces falsy optional fields to
null with `|| null`: an auditor-supplied `finalAmount` of exactly 0 is
transmitted as null — indistinguishable from supplying no amount at all —
and the persisted entry then carries no final amount; an empty comments
string is likewise transmitted as null; the client-side `auditDetails`
computation maps empty-or-unparseable input to `undefined`, while an
input of "0" parses to 0 and is nulled only by the `|| null` coercion. -/
theorem falsy_coercion_zero_finalAmount
    (requestId approverId : String) (action : ApprovalStatus)
    (sig : String) (hodComments : Option String)
    (internalAuditComments : String) (comments : String)
    (parsed : Option Rat) (finStr : String) :
    (updateRequestStatusPayload requestId approverId action comments sig
        hodComments (some ⟨internalAuditComments, some 0⟩)).p_final_amount
      = none ∧
    (updateRequestStatusPayload requestId approverId action comments sig
        hodComments (some ⟨internalAuditComments, some 0⟩)).p_final_amount
      = (updateRequestStatusPayload requestId approverId action comments sig
          hodComments (some ⟨internalAuditComments, none⟩)).p_final_amount ∧
    (∀ (entry : Approver) (now : String),
      (appliedEntry entry
          (updateRequestStatusPayload requestId approverId action comments sig
            hodComments (some ⟨internalAuditComments, some 0⟩)) now).finalAmount
        = none) ∧
    (updateRequestStatusPayload requestId approverId action "" sig
        hodComments none).p_comments = none ∧
    computeAuditFinalAmount "" parsed = none ∧
    (parsed = none → computeAuditFinalAmount finStr parsed = none) ∧
    computeAuditFinalAmount "0" (some 0) = some 0 := by
  refine ⟨?_, ?_, fun entry now => ?_, rfl, ?_, fun hp => ?_, by decide⟩
  · simp [updateRequestStatusPayload, jsNumOrNull]
  · simp [updateRequestStatusPayload, jsNumOrNull]
  · simp [appliedEntry, updateRequestStatusPayload, jsNumOrNull]
  · simp [computeAuditFinalAmount]
  · simp [computeAuditFinalAmount, hp]

/-- Witness for C10's amended claim at a concrete input: an auditor
supplying final amount 0 with empty comments has both transmitted as
null, and unparseable input maps to `undefined`. -/
theorem falsy_coercion_zero_finalAmount_witness :
    (updateRequestStatusPayload "R1" "AUD" ApprovalStatus.APPROVED "" "sig" none
        (some ⟨"checked", some 0⟩)).p_final_amount = none ∧
    (updateRequestStatusPayload "R1" "AUD" ApprovalStatus.APPROVED "" "sig" none
        none).p_comments = none ∧
    computeAuditFinalAmount "abc" none = none :=
  ⟨(falsy_coercion_zero_finalAmount "R1" "AUD" ApprovalStatus.APPROVED "sig" none
      "checked" "" none "abc").1,
   (falsy_coercion_zero_finalAmount "R1" "AUD" ApprovalStatus.APPROVED "sig" none
      "checked" "" none "abc").2.2.2.1,
   (falsy_coercion_zero_finalAmount "R1" "AUD" ApprovalStatus.APPROVED "sig" none
      "checked" "" none "abc").2.2.2.2.2.1 rfl⟩

end Zankli
